import Mathlib

/-!
Verification of the bucket-notification listener and file-processing pipeline
of the openhim-datalake-lib repository.

The embedding models `ListenerManager` (src/datalake/listeners.ts, shown in
src/src/datalake/bucket.ts), the mime classifier `detectMimeType`, the
subscription bookkeeping (`startListening` / `stopListening`), and
`OpenHIMService.registerBucket` (src/src/openhim/mediator.ts).

Side effects (logging, the cross-instance event emitter, object-store fetch,
temp-file read / removal, processor invocation, orchestration-API writes) are
made observable as an explicit trace of `Event` values.  External operations
that can fail in the source (`fGetObject`, `readFile`, `rm`, `axios.put`) are
given to the model as `Except`-valued oracles: the model consumes the outcome
the environment would produce, exactly where the source awaits the call.
A caught JavaScript exception corresponds to the `Except.error` branch of the
oracle; `handleNotification` itself returns a plain trace because the source
wraps its whole body in try/catch blocks so no exception escapes it.
-/

namespace DatalakeLib

/-! ### JS string primitives

`detectMimeType` in the source uses `file.split(".")` and `.toLowerCase()`.
The separator is the single character dot, so JavaScript `split` is split of
the character list at each dot (keeping empty pieces, with `"".split(".")`
equal to `[""]`), and `toLowerCase` lower-cases each character. -/

/-- Accumulator-based split of a character list at each dot, mirroring the
semantics of JavaScript `String.prototype.split(".")`. -/
def splitDotAux : List Char → List Char → List String
  | [], acc => [String.mk acc.reverse]
  | c :: cs, acc =>
    if c = '.' then String.mk acc.reverse :: splitDotAux cs []
    else splitDotAux cs (c :: acc)

/-- JavaScript `s.split(".")`. -/
def jsSplitDot (s : String) : List String := splitDotAux s.data []

/-- JavaScript `s.toLowerCase()` (ASCII case folding, as `Char.toLower`). -/
def jsToLower (s : String) : String := String.mk (s.data.map Char.toLower)

/-! ### MimeClassifier (`ListenerManager.detectMimeType`) -/

/-- The extension table of `detectMimeType`, in source order. -/
def mimeTypes : List (String × String) :=
  [("json", "application/json"),
   ("csv", "text/csv"),
   ("txt", "text/plain"),
   ("xml", "application/xml"),
   ("mp3", "audio/mpeg"),
   ("wav", "audio/wav"),
   ("mp4", "video/mp4"),
   ("pdf", "application/pdf"),
   ("png", "image/png"),
   ("jpg", "image/jpeg"),
   ("jpeg", "image/jpeg")]

/-- `ListenerManager.detectMimeType`, string-valued simplification:
`file.split(".").pop()?.toLowerCase()` looked up in the table, defaulting to
`application/octet-stream`.  JavaScript `pop()` on the (always nonempty)
split result is the last element; `ext || ""` only turns an empty extension
into `""`, which is already not a table key.  This definition covers the
own-entry and default paths of the source's `mimeTypes[ext]` object access;
it is what the dispatcher-level theorems use, and they are parametric in the
classified value.  The source's access additionally reaches the inherited
members of the JavaScript object prototype (after lower-casing, the names
`constructor` and `__proto__`), on which the source returns a truthy
non-string; the full runtime model is `detectMimeTypeValue` below, which
agrees with this definition away from those names
(`detectMimeTypeValue_agrees`). -/
def detectMimeType (file : String) : String :=
  let ext := jsToLower ((jsSplitDot file).getLastD "")
  ((mimeTypes.lookup ext).getD "application/octet-stream")

/-- The runtime value of the source's `mimeTypes[ext || ""] || default`
expression: a content-type string from the table, an inherited member of
`Object.prototype` (a function or object — truthy and not a string), or
JavaScript `undefined` for a genuine miss. -/
inductive JsValue where
  | str (s : String)
  | protoMember (name : String)
  | undef
  deriving DecidableEq, Repr

/-- The property names an object literal inherits from `Object.prototype`,
all bound to truthy non-string values (methods, the `constructor` function,
and the `__proto__` accessor whose value is `Object.prototype` itself).
Property access is case-sensitive, so after the source's lower-casing only
`constructor` and `__proto__` remain reachable. -/
def objectProtoKeys : List String :=
  ["constructor", "hasOwnProperty", "isPrototypeOf", "propertyIsEnumerable",
   "toLocaleString", "toString", "valueOf", "__proto__", "__defineGetter__",
   "__defineSetter__", "__lookupGetter__", "__lookupSetter__"]

/-- JavaScript property access `mimeTypes[ext]` on the object literal: an
own entry wins, otherwise the prototype chain is consulted, otherwise the
access yields `undefined`. -/
def jsPropertyAccess (ext : String) : JsValue :=
  match mimeTypes.lookup ext with
  | some v => JsValue.str v
  | none =>
    if ext ∈ objectProtoKeys then JsValue.protoMember ext else JsValue.undef

/-- JavaScript truthiness of such a value: `undefined` and the empty string
are falsy; every inherited prototype member (function or object) is truthy. -/
def jsTruthy : JsValue → Bool
  | JsValue.str s => !(s == "")
  | JsValue.protoMember _ => true
  | JsValue.undef => false

/-- `ListenerManager.detectMimeType`, full runtime model:
`mimeTypes[ext || ""] || "application/octet-stream"` where `||` keeps its
left operand when truthy — so an inherited prototype member is returned
as-is, and only a falsy access result falls back to the generic binary
type. -/
def detectMimeTypeValue (file : String) : JsValue :=
  let ext := jsToLower ((jsSplitDot file).getLastD "")
  let v := jsPropertyAccess ext
  if jsTruthy v then v else JsValue.str "application/octet-stream"

/-! ### Data model of the dispatcher -/

/-- `s3.object` part of a notification payload: the key may be absent. -/
structure S3Object where
  key : Option String
  deriving DecidableEq, Repr

/-- `s3` part of a notification payload. -/
structure S3Section where
  object : Option S3Object
  deriving DecidableEq, Repr

/-- An inbound raw notification payload.  `eventName` is the event-type value
actually present in the payload; the dispatcher never reads it. -/
structure Notification where
  s3 : Option S3Section
  eventName : Option String
  deriving DecidableEq, Repr

/-- `notification.s3?.object?.key` (optional chaining). -/
def Notification.fileKey (n : Notification) : Option String :=
  (n.s3.bind (fun s => s.object)).bind (fun o => o.key)

/-- The processing context handed to every matching processor
(`ProcessorContext` in src/types): bucket, file, staged bytes, classified
mime type, and an initially empty metadata map. -/
structure ProcessorContext where
  bucket : String
  file : String
  buffer : List Nat
  mimeType : String
  metadata : List (String × String)

/-- A registered file processor: its identity used in log lines
(`processor.constructor.name`), the predicate capability, and the action
capability whose outcome is success or a raised error. -/
structure FileProcessor where
  name : String
  canProcess : String → String → Bool
  process : ProcessorContext → Except String Unit

/-- Observable effects of one `handleNotification` dispatch. -/
inductive Event where
  | warnLog (msg : String)
  | infoLog (msg : String)
  | debugLog (msg : String)
  | errorLog (msg : String)
  | emitNotification (bucket file eventType : String)
  | fetchObject (bucket file tmpPath : String)
  | readTmp (tmpPath : String)
  | invokeProcessor (name file : String)
  | removeTmp (tmpPath : String)
  deriving DecidableEq, Repr

/-! Log messages of the source, built by concatenation. -/

def noFileKeyMsg : String := "Received notification without file key"

def fileReceivedMsg (file bucket : String) : String :=
  "File received: " ++ file ++ " from bucket " ++ bucket

def processedMsg (file pname : String) : String :=
  "Processed " ++ file ++ " with " ++ pname

def procFailedMsg (pname file err : String) : String :=
  "Processor " ++ pname ++ " failed for " ++ file ++ ": " ++ err

def processingErrorMsg (file err : String) : String :=
  "Error processing file " ++ file ++ ": " ++ err

def cleanedUpMsg (tmpPath : String) : String :=
  "Cleaned up temp file " ++ tmpPath

/-- The fan-out loop of `handleNotification`: for each processor in
registration order, if `canProcess(file, mimeType)` holds, invoke `process`
inside its own try/catch — a raised error becomes an error log naming the
processor and the file, and the loop continues. -/
def runProcessors : List FileProcessor → ProcessorContext → List Event
  | [], _ => []
  | p :: ps, ctx =>
    (if p.canProcess ctx.file ctx.mimeType then
      Event.invokeProcessor p.name ctx.file ::
        (match p.process ctx with
          | Except.ok _ => [Event.debugLog (processedMsg ctx.file p.name)]
          | Except.error e => [Event.errorLog (procFailedMsg p.name ctx.file e)])
     else []) ++ runProcessors ps ctx

/-- The try-block of `handleNotification`: stage with `fGetObject`, read the
staged bytes with `readFile`, classify, fan out, then `rm` the temp file.
Each oracle gives the outcome of the corresponding external call; a thrown
error short-circuits to the catch-branch, which logs
`Error processing file ...`. -/
def tryBlock (procs : List FileProcessor) (fetchResult : Except String Unit)
    (readResult : Except String (List Nat)) (rmResult : Except String Unit)
    (bucket file : String) : List Event :=
  let tmpPath := "tmp/" ++ file
  Event.fetchObject bucket file tmpPath ::
    match fetchResult with
    | Except.error e => [Event.errorLog (processingErrorMsg file e)]
    | Except.ok _ =>
      Event.readTmp tmpPath ::
        match readResult with
        | Except.error e => [Event.errorLog (processingErrorMsg file e)]
        | Except.ok buffer =>
          let mimeType := detectMimeType file
          runProcessors procs (ProcessorContext.mk bucket file buffer mimeType []) ++
            Event.removeTmp tmpPath ::
              match rmResult with
              | Except.error e => [Event.errorLog (processingErrorMsg file e)]
              | Except.ok _ => [Event.debugLog (cleanedUpMsg tmpPath)]

/-- `ListenerManager.handleNotification`.  `!file` in JavaScript is true both
when the key is absent and when it is the empty string, so both cases take
the warn-and-return branch.  Otherwise: info log, unconditional emit of the
notification event with the hard-coded event type, then the try-block.  The
function is total (returns a trace, never an error): every failure of an
external call or of a processor is caught inside. -/
def handleNotification (procs : List FileProcessor)
    (fetchResult : Except String Unit) (readResult : Except String (List Nat))
    (rmResult : Except String Unit) (bucket : String) (n : Notification) :
    List Event :=
  match n.fileKey with
  | none => [Event.warnLog noFileKeyMsg]
  | some file =>
    if file = "" then [Event.warnLog noFileKeyMsg]
    else
      Event.infoLog (fileReceivedMsg file bucket) ::
        Event.emitNotification bucket file "s3:ObjectCreated:*" ::
          tryBlock procs fetchResult readResult rmResult bucket file

/-! ### Trace observations -/

/-- Names of the processors invoked in a trace, in invocation order. -/
def invokedNames : List Event → List String
  | [] => []
  | Event.invokeProcessor nm _ :: tr => nm :: invokedNames tr
  | _ :: tr => invokedNames tr

/-- The notification events published in a trace, as (bucket, file, eventType). -/
def emittedNotifications : List Event → List (String × String × String)
  | [] => []
  | Event.emitNotification b f t :: tr => (b, f, t) :: emittedNotifications tr
  | _ :: tr => emittedNotifications tr

/-- Whether an event is an operation on the temporary staged file
(fetch into it, read from it, or remove it). -/
def isTmpOp : Event → Bool
  | Event.fetchObject _ _ _ => true
  | Event.readTmp _ => true
  | Event.removeTmp _ => true
  | _ => false

/-- Number of temporary-file operations in a trace. -/
def tmpOpCount (tr : List Event) : Nat := (tr.filter isTmpOp).length

/-- Whether an event is a removal of a temporary path. -/
def isRemove : Event → Bool
  | Event.removeTmp _ => true
  | _ => false

/-- Number of temp-file removal attempts in a trace. -/
def removeCount (tr : List Event) : Nat := (tr.filter isRemove).length

/-! ### Subscription bookkeeping (`startListening` / `stopListening`)

`ListenerManager` keeps `registeredBuckets : Set<string>` and
`listeners : Map<string, NotificationPoller>`.  A poller handle is modelled
by the unique `Nat` identity of the poller object the client returned;
`nextId` supplies fresh identities, so two different
`listenBucketNotification` calls never yield the same handle.  The `prefix`
and `suffix` filters are passed through to the backend unchanged and play no
role in the bookkeeping, so they are not modelled. -/

structure LMState where
  registeredBuckets : List String
  listeners : List (String × Nat)
  nextId : Nat
  deriving DecidableEq, Repr

/-- A freshly constructed `ListenerManager`: nothing subscribed. -/
def initState : LMState := LMState.mk [] [] 0

/-- Observable effects of the subscription manager. -/
inductive LMEvent where
  | debugAlreadyListening (bucket : String)
  | openSubscription (bucket : String) (id : Nat)
  | infoListening (bucket : String)
  | stopSubscription (bucket : String) (id : Nat)
  | infoStopped (bucket : String)
  deriving DecidableEq, Repr

/-- One iteration of the loop in `startListening`: a bucket already in
`registeredBuckets` is skipped with a debug log; otherwise a new poller is
opened, recorded in both maps, and the listening info is logged. -/
def startListeningStep (s : LMState) (bucket : String) : LMState × List LMEvent :=
  if bucket ∈ s.registeredBuckets then
    (s, [LMEvent.debugAlreadyListening bucket])
  else
    (LMState.mk (s.registeredBuckets ++ [bucket])
      (s.listeners ++ [(bucket, s.nextId)]) (s.nextId + 1),
     [LMEvent.openSubscription bucket s.nextId, LMEvent.infoListening bucket])

/-- `ListenerManager.startListening(buckets)`: the loop over the given bucket
names. -/
def startListening (s : LMState) : List String → LMState × List LMEvent
  | [] => (s, [])
  | b :: bs =>
    let step := startListeningStep s b
    let rest := startListening step.1 bs
    (rest.1, step.2 ++ rest.2)

/-- The stop / log pairs issued by `stopListening`, one per live listener in
map order. -/
def stopEvents : List (String × Nat) → List LMEvent
  | [] => []
  | (b, i) :: rest =>
    LMEvent.stopSubscription b i :: LMEvent.infoStopped b :: stopEvents rest

/-- `ListenerManager.stopListening()`: request stop on every live poller,
then clear both the listener map and the registered-bucket set. -/
def stopListening (s : LMState) : LMState × List LMEvent :=
  (LMState.mk [] [] s.nextId, stopEvents s.listeners)

/-- Bucket names that currently hold a live subscription, in map order. -/
def lmKeys (s : LMState) : List String := s.listeners.map Prod.fst

/-- A sequence of `startListening` calls on one manager (states threaded
through, traces discarded). -/
def runCalls : LMState → List (List String) → LMState
  | s, [] => s
  | s, c :: cs => runCalls (startListening s c).1 cs

/-- State invariant of `ListenerManager`: the registered-bucket set and the
listener map hold exactly the same bucket names (in insertion order), no
bucket has two listeners, and every recorded poller identity was drawn from
the fresh-identity supply. -/
def LMInv (s : LMState) : Prop :=
  s.registeredBuckets = lmKeys s ∧ (lmKeys s).Nodup ∧
    ∀ p ∈ s.listeners, p.2 < s.nextId

/-! ### OpenHIM bucket registration (`OpenHIMService.registerBucket`) -/

/-- An entry of the `minio_buckets_registry` configuration list. -/
structure BucketRegistryEntry where
  bucket : String
  deriving DecidableEq, Repr

/-- The `config` section of a fetched mediator configuration; the registry
list itself may be absent. -/
structure MediatorConfigSection where
  minio_buckets_registry : Option (List BucketRegistryEntry)
  deriving DecidableEq, Repr

/-- A fetched mediator configuration; the `config` section may be absent. -/
structure MediatorConfig where
  config : Option MediatorConfigSection
  deriving DecidableEq, Repr

/-- Observable effects of the OpenHIM service.  `putConfig` is the
`axios.put` of the mediator configuration: the only write to the
orchestration API. -/
inductive OHEvent where
  | errorLog (msg : String)
  | infoLog (msg : String)
  | debugLog (msg : String)
  | putConfig (buckets : List BucketRegistryEntry)
  deriving DecidableEq, Repr

def configNotFoundMsg : String :=
  "Mediator config not found in OpenHIM, unable to register bucket"

def creatingConfigMsg : String :=
  "Mediator config does not have a config section, creating new config"

def bucketExistsMsg (bucket : String) : String :=
  "Bucket " ++ bucket ++ " already exists in the config"

def addingBucketMsg (bucket : String) : String :=
  "Adding bucket " ++ bucket ++ " to OpenHIM config"

def updatedConfigMsg : String :=
  "Successfully updated mediator config in OpenHIM"

def failedUpdateMsg (err : String) : String :=
  "Failed to update mediator config: " ++ err

/-- `OpenHIMService.putMediatorConfig`: attempt the PUT; on success log the
info line, on failure log the error line and rethrow. -/
def putMediatorConfig (putResult : Except String Unit)
    (buckets : List BucketRegistryEntry) : Except String Unit × List OHEvent :=
  match putResult with
  | Except.ok _ =>
    (Except.ok (), [OHEvent.putConfig buckets, OHEvent.infoLog updatedConfigMsg])
  | Except.error e =>
    (Except.error e, [OHEvent.putConfig buckets, OHEvent.errorLog (failedUpdateMsg e)])

/-- `OpenHIMService.registerBucket`.  `fetched` is the result of
`getMediatorConfig()` (which returns null on any fetch error); `putResult`
is the outcome the orchestration API would give a PUT.  Returns the source's
boolean (or the rethrown PUT error) together with the effect trace. -/
def registerBucket (fetched : Option MediatorConfig)
    (putResult : Except String Unit) (bucket : String) :
    Except String Bool × List OHEvent :=
  match fetched with
  | none => (Except.ok false, [OHEvent.errorLog configNotFoundMsg])
  | some mediatorConfig =>
    let newBucket := BucketRegistryEntry.mk bucket
    match mediatorConfig.config with
    | none =>
      let put := putMediatorConfig putResult [newBucket]
      (put.1.map (fun _ => true), OHEvent.infoLog creatingConfigMsg :: put.2)
    | some existingConfig =>
      match (existingConfig.minio_buckets_registry.getD []).find?
          (fun b => b.bucket == bucket) with
      | some _ => (Except.ok false, [OHEvent.debugLog (bucketExistsMsg bucket)])
      | none =>
        let updated := existingConfig.minio_buckets_registry.getD [] ++ [newBucket]
        let put := putMediatorConfig putResult updated
        (put.1.map (fun _ => true), OHEvent.infoLog (addingBucketMsg bucket) :: put.2)

/-! ### Helper lemmas about the fan-out loop -/

lemma invokedNames_append (a b : List Event) :
    invokedNames (a ++ b) = invokedNames a ++ invokedNames b := by
  induction a with
  | nil => rfl
  | cons e tr ih => cases e <;> simp [invokedNames, ih]

lemma emittedNotifications_append (a b : List Event) :
    emittedNotifications (a ++ b) =
      emittedNotifications a ++ emittedNotifications b := by
  induction a with
  | nil => rfl
  | cons e tr ih => cases e <;> simp [emittedNotifications, ih]

lemma invokedNames_runProcessors (ps : List FileProcessor) (ctx : ProcessorContext) :
    invokedNames (runProcessors ps ctx) =
      (ps.filter fun p => p.canProcess ctx.file ctx.mimeType).map FileProcessor.name := by
  induction ps with
  | nil => simp [runProcessors, invokedNames]
  | cons p ps ih =>
    cases hc : p.canProcess ctx.file ctx.mimeType with
    | true =>
      cases hp : p.process ctx <;>
        simp [runProcessors, hc, hp, invokedNames_append, ih,
          List.filter_cons, invokedNames]
    | false =>
      simp [runProcessors, hc, invokedNames_append, ih, List.filter_cons]

lemma filter_isRemove_runProcessors (ps : List FileProcessor) (ctx : ProcessorContext) :
    (runProcessors ps ctx).filter isRemove = [] := by
  induction ps with
  | nil => simp [runProcessors]
  | cons p ps ih =>
    cases hc : p.canProcess ctx.file ctx.mimeType with
    | true =>
      cases hp : p.process ctx <;>
        simp [runProcessors, hc, hp, List.filter_append, ih, isRemove]
    | false =>
      simp [runProcessors, hc, List.filter_append, ih]

lemma emittedNotifications_runProcessors (ps : List FileProcessor)
    (ctx : ProcessorContext) :
    emittedNotifications (runProcessors ps ctx) = [] := by
  induction ps with
  | nil => simp [runProcessors, emittedNotifications]
  | cons p ps ih =>
    cases hc : p.canProcess ctx.file ctx.mimeType with
    | true =>
      cases hp : p.process ctx <;>
        simp [runProcessors, hc, hp, emittedNotifications_append,
          emittedNotifications, ih]
    | false =>
      simp [runProcessors, hc, emittedNotifications_append,
        emittedNotifications, ih]

lemma errorLog_mem_runProcessors (ps : List FileProcessor)
    (ctx : ProcessorContext) (p : FileProcessor) (e : String)
    (hmem : p ∈ ps) (hcan : p.canProcess ctx.file ctx.mimeType = true)
    (hfail : p.process ctx = Except.error e) :
    Event.errorLog (procFailedMsg p.name ctx.file e) ∈ runProcessors ps ctx := by
  induction ps with
  | nil => cases hmem
  | cons q ps ih =>
    rcases List.mem_cons.mp hmem with h | h
    · subst h
      simp [runProcessors, hcan, hfail]
    · cases hc : q.canProcess ctx.file ctx.mimeType with
      | true => cases hp : q.process ctx <;> simp [runProcessors, hc, hp, ih h]
      | false => simp [runProcessors, hc, ih h]

/-! ### Sample processors and notifications used by the witnesses -/

/-- A processor that accepts only JSON files and succeeds. -/
def procJson : FileProcessor :=
  FileProcessor.mk "JsonProc" (fun _ m => m == "application/json")
    (fun _ => Except.ok ())

/-- A processor that accepts every file and succeeds. -/
def procAlways : FileProcessor :=
  FileProcessor.mk "AlwaysProc" (fun _ _ => true) (fun _ => Except.ok ())

/-- A processor that accepts every file and always raises. -/
def procFailing : FileProcessor :=
  FileProcessor.mk "FailingProc" (fun _ _ => true)
    (fun _ => Except.error "boom")

/-- A well-formed notification for `data.json`; its payload carries a
concrete event type that differs from the hard-coded one. -/
def sampleNotification : Notification :=
  Notification.mk (some (S3Section.mk (some (S3Object.mk (some "data.json")))))
    (some "s3:ObjectCreated:Put")

/-- A notification whose `s3` section is present but whose `object` part is
absent, so `s3?.object?.key` resolves to nothing. -/
def keylessNotification : Notification :=
  Notification.mk (some (S3Section.mk none)) (some "s3:ObjectCreated:Put")

/-! ### C1 -/

/-- C1: for a notification for file `f`, the dispatcher invokes the action of
exactly those registered processors whose `canProcess` predicate accepts
`(f, detectMimeType f)`, in registration order.  The right-hand side depends
only on the processor list and the file name — not on the staged bytes, the
cleanup outcome, the bucket, or the rest of the payload — so the invocation
list is identical on every run with the same registered processors. -/
theorem dispatch_invokes_matching_in_order
    (procs : List FileProcessor) (rmResult : Except String Unit)
    (buffer : List Nat) (bucket file : String) (n : Notification)
    (hkey : n.fileKey = some file) (hne : file ≠ "") :
    invokedNames (handleNotification procs (Except.ok ()) (Except.ok buffer)
        rmResult bucket n) =
      (procs.filter fun p => p.canProcess file (detectMimeType file)).map
        FileProcessor.name := by
  simp only [handleNotification, hkey, hne, if_false, tryBlock]
  cases rmResult <;>
    simp [invokedNames, invokedNames_append, invokedNames_runProcessors]

/-- Witness for C1: the spec's own scenario — a JSON-only processor and an
always-true processor both match `data.json` and run in registration order. -/
theorem dispatch_invokes_matching_in_order_witness :
    sampleNotification.fileKey = some "data.json" ∧ "data.json" ≠ "" ∧
      invokedNames (handleNotification [procJson, procAlways] (Except.ok ())
          (Except.ok [1, 2]) (Except.ok ()) "uploads" sampleNotification) =
        ([procJson, procAlways].filter fun p =>
            p.canProcess "data.json" (detectMimeType "data.json")).map
          FileProcessor.name :=
  ⟨rfl, by decide,
    dispatch_invokes_matching_in_order [procJson, procAlways] (Except.ok ())
      [1, 2] "uploads" "data.json" sampleNotification rfl (by decide)⟩

/-! ### C2 -/

/-- C2: a raised error from one processor is caught and logged with the
processor's identity and the file name, every later-registered matching
processor is still invoked (the invocation list is the full matching filter,
unchanged by the failure), and the dispatch does not fail — the model of
`handleNotification` is a total function into traces because every processor
error is consumed by the per-processor try/catch. -/
theorem processor_failure_isolated
    (pre post : List FileProcessor) (p : FileProcessor) (e : String)
    (rmResult : Except String Unit) (buffer : List Nat)
    (bucket file : String) (n : Notification)
    (hkey : n.fileKey = some file) (hne : file ≠ "")
    (hcan : p.canProcess file (detectMimeType file) = true)
    (hfail : p.process (ProcessorContext.mk bucket file buffer
        (detectMimeType file) []) = Except.error e) :
    Event.errorLog (procFailedMsg p.name file e) ∈
        handleNotification (pre ++ p :: post) (Except.ok ()) (Except.ok buffer)
          rmResult bucket n ∧
      invokedNames (handleNotification (pre ++ p :: post) (Except.ok ())
          (Except.ok buffer) rmResult bucket n) =
        ((pre ++ p :: post).filter fun q =>
            q.canProcess file (detectMimeType file)).map FileProcessor.name := by
  constructor
  · have hm := errorLog_mem_runProcessors (pre ++ p :: post)
      (ProcessorContext.mk bucket file buffer (detectMimeType file) []) p e
      (by simp) hcan hfail
    simp only [handleNotification, hkey, hne, if_false, tryBlock]
    simp [hm]
  · simp only [handleNotification, hkey, hne, if_false, tryBlock]
    cases rmResult <;>
      simp [invokedNames, invokedNames_append, invokedNames_runProcessors]

/-- Witness for C2: the spec's scenario — a failing always-true processor
registered before a succeeding always-true processor; the failure is logged
and both are invoked. -/
theorem processor_failure_isolated_witness :
    sampleNotification.fileKey = some "data.json" ∧ "data.json" ≠ "" ∧
      procFailing.canProcess "data.json" (detectMimeType "data.json") = true ∧
      procFailing.process (ProcessorContext.mk "uploads" "data.json" [7]
          (detectMimeType "data.json") []) = Except.error "boom" ∧
      (Event.errorLog (procFailedMsg "FailingProc" "data.json" "boom") ∈
          handleNotification [procFailing, procAlways] (Except.ok ())
            (Except.ok [7]) (Except.ok ()) "uploads" sampleNotification ∧
        invokedNames (handleNotification [procFailing, procAlways]
            (Except.ok ()) (Except.ok [7]) (Except.ok ()) "uploads"
            sampleNotification) =
          (([procFailing, procAlways] : List FileProcessor).filter fun q =>
              q.canProcess "data.json" (detectMimeType "data.json")).map
            FileProcessor.name) :=
  ⟨rfl, by decide, rfl, rfl,
    processor_failure_isolated [] [procAlways] procFailing "boom"
      (Except.ok ()) [7] "uploads" "data.json" sampleNotification rfl
      (by decide) rfl rfl⟩

/-! ### C3 -/

/-- C3: a notification whose payload has no resolvable object key produces
exactly one warning log and nothing else: no processor invocation, no
temporary-file operation (fetch, read, or remove), and — the model being a
total function into traces — no exception reaches the subscription layer. -/
theorem missing_key_no_processing
    (procs : List FileProcessor) (fetchResult : Except String Unit)
    (readResult : Except String (List Nat)) (rmResult : Except String Unit)
    (bucket : String) (n : Notification) (hkey : n.fileKey = none) :
    handleNotification procs fetchResult readResult rmResult bucket n =
        [Event.warnLog noFileKeyMsg] ∧
      invokedNames (handleNotification procs fetchResult readResult rmResult
          bucket n) = [] ∧
      tmpOpCount (handleNotification procs fetchResult readResult rmResult
          bucket n) = 0 := by
  refine ⟨?_, ?_, ?_⟩ <;>
    simp [handleNotification, hkey, invokedNames, tmpOpCount, isTmpOp]

/-- Witness for C3: a payload whose `s3.object` part is missing entirely. -/
theorem missing_key_no_processing_witness :
    keylessNotification.fileKey = none ∧
      (handleNotification [procAlways] (Except.ok ()) (Except.ok [])
            (Except.ok ()) "uploads" keylessNotification =
          [Event.warnLog noFileKeyMsg] ∧
        invokedNames (handleNotification [procAlways] (Except.ok ())
            (Except.ok []) (Except.ok ()) "uploads" keylessNotification) = [] ∧
        tmpOpCount (handleNotification [procAlways] (Except.ok ())
            (Except.ok []) (Except.ok ()) "uploads" keylessNotification) = 0) :=
  ⟨rfl, missing_key_no_processing [procAlways] (Except.ok ()) (Except.ok [])
    (Except.ok ()) "uploads" keylessNotification rfl⟩

/-! ### C4 -/

/-- Counterexample to C4 as stated: the staging fetch (`fGetObject`)
succeeds — the fetch operation is in the trace with a successful outcome —
yet no removal of the temporary path is ever attempted, because the
subsequent `readFile` of the staged copy throws, and the single outer
try/catch skips straight past the `rm` call.  So a successfully staged
notification can end with zero removals, not exactly one. -/
theorem cleanup_skipped_on_read_failure :
    Event.fetchObject "uploads" "data.json" "tmp/data.json" ∈
        handleNotification [] (Except.ok ())
          (Except.error "EACCES: permission denied") (Except.ok ()) "uploads"
          sampleNotification ∧
      removeCount (handleNotification [] (Except.ok ())
          (Except.error "EACCES: permission denied") (Except.ok ()) "uploads"
          sampleNotification) = 0 := by
  constructor
  · decide
  · decide

/-- C4 (amended): when the staging fetch succeeds AND the read of the staged
bytes succeeds, the removal of the temporary staged copy is attempted exactly
once, regardless of how many processors fail and of the removal's own
outcome; when the staging fetch itself fails, no removal is attempted and the
dispatch terminates right after logging the fetch failure.  (The amendment:
the original claim promised the removal after fetch success alone, but an
error thrown by the read of the staged copy also skips the removal.) -/
theorem cleanup_exactly_once_amended
    (procs : List FileProcessor) (rmResult : Except String Unit)
    (readResult : Except String (List Nat)) (buffer : List Nat) (fe : String)
    (bucket file : String) (n : Notification)
    (hkey : n.fileKey = some file) (hne : file ≠ "") :
    removeCount (handleNotification procs (Except.ok ()) (Except.ok buffer)
        rmResult bucket n) = 1 ∧
      handleNotification procs (Except.error fe) readResult rmResult bucket n =
        [Event.infoLog (fileReceivedMsg file bucket),
          Event.emitNotification bucket file "s3:ObjectCreated:*",
          Event.fetchObject bucket file ("tmp/" ++ file),
          Event.errorLog (processingErrorMsg file fe)] := by
  constructor
  · simp only [handleNotification, hkey, hne, if_false, tryBlock]
    cases rmResult <;>
      simp [removeCount, isRemove, List.filter_append,
        filter_isRemove_runProcessors]
  · simp only [handleNotification, hkey, hne, if_false, tryBlock]

/-- Witness for C4 (amended): with a failing processor registered, cleanup is
still attempted exactly once; with a failing fetch, the dispatch is the
four-event trace ending in the fetch-failure log. -/
theorem cleanup_exactly_once_amended_witness :
    sampleNotification.fileKey = some "data.json" ∧ "data.json" ≠ "" ∧
      (removeCount (handleNotification [procFailing] (Except.ok ())
            (Except.ok [7]) (Except.ok ()) "uploads" sampleNotification) = 1 ∧
        handleNotification [procFailing] (Except.error "connect ECONNREFUSED")
            (Except.ok [7]) (Except.ok ()) "uploads" sampleNotification =
          [Event.infoLog (fileReceivedMsg "data.json" "uploads"),
            Event.emitNotification "uploads" "data.json" "s3:ObjectCreated:*",
            Event.fetchObject "uploads" "data.json" ("tmp/" ++ "data.json"),
            Event.errorLog
              (processingErrorMsg "data.json" "connect ECONNREFUSED")]) :=
  ⟨rfl, by decide,
    cleanup_exactly_once_amended [procFailing] (Except.ok ()) (Except.ok [7])
      [7] "connect ECONNREFUSED" "uploads" "data.json" sampleNotification rfl
      (by decide)⟩

/-! ### C7 -/

/-- C7: whenever the payload carries a (non-empty) object key, the first two
events of the dispatch are the info log and the publication of the
notification event on the cross-instance bus — for every outcome of staging,
read, cleanup, and of every processor.  Hence the event is published before
any temporary-file operation (all of which lie strictly after position 1 of
the trace) and is never suppressed by a downstream failure. -/
theorem notification_event_before_staging
    (procs : List FileProcessor) (fetchResult : Except String Unit)
    (readResult : Except String (List Nat)) (rmResult : Except String Unit)
    (bucket file : String) (n : Notification)
    (hkey : n.fileKey = some file) (hne : file ≠ "") :
    (handleNotification procs fetchResult readResult rmResult bucket n).take 2 =
        [Event.infoLog (fileReceivedMsg file bucket),
          Event.emitNotification bucket file "s3:ObjectCreated:*"] ∧
      Event.emitNotification bucket file "s3:ObjectCreated:*" ∈
        handleNotification procs fetchResult readResult rmResult bucket n ∧
      tmpOpCount ((handleNotification procs fetchResult readResult rmResult
          bucket n).take 2) = 0 := by
  refine ⟨?_, ?_, ?_⟩ <;>
    simp [handleNotification, hkey, hne, tmpOpCount, isTmpOp]

/-- Witness for C7: even with a failing fetch and a failing processor
registered, the notification event is published at position 1. -/
theorem notification_event_before_staging_witness :
    sampleNotification.fileKey = some "data.json" ∧ "data.json" ≠ "" ∧
      ((handleNotification [procFailing] (Except.error "timeout")
            (Except.ok []) (Except.ok ()) "uploads" sampleNotification).take 2 =
          [Event.infoLog (fileReceivedMsg "data.json" "uploads"),
            Event.emitNotification "uploads" "data.json" "s3:ObjectCreated:*"] ∧
        Event.emitNotification "uploads" "data.json" "s3:ObjectCreated:*" ∈
          handleNotification [procFailing] (Except.error "timeout")
            (Except.ok []) (Except.ok ()) "uploads" sampleNotification ∧
        tmpOpCount ((handleNotification [procFailing] (Except.error "timeout")
            (Except.ok []) (Except.ok ()) "uploads"
            sampleNotification).take 2) = 0) :=
  ⟨rfl, by decide,
    notification_event_before_staging [procFailing] (Except.error "timeout")
      (Except.ok []) (Except.ok ()) "uploads" "data.json" sampleNotification
      rfl (by decide)⟩

/-! ### C10 -/

/-- C10: the notification event published on the bus always carries the
constant event type string, whatever event-type value (`n.eventName`, left
completely unconstrained here) the inbound payload actually contained, and
it is the only notification event of the dispatch. -/
theorem emit_event_type_hardcoded
    (procs : List FileProcessor) (fetchResult : Except String Unit)
    (readResult : Except String (List Nat)) (rmResult : Except String Unit)
    (bucket file : String) (n : Notification)
    (hkey : n.fileKey = some file) (hne : file ≠ "") :
    emittedNotifications (handleNotification procs fetchResult readResult
        rmResult bucket n) = [(bucket, file, "s3:ObjectCreated:*")] := by
  simp only [handleNotification, hkey, hne, if_false, tryBlock]
  cases fetchResult <;> cases readResult <;> cases rmResult <;>
    simp [emittedNotifications, emittedNotifications_append,
      emittedNotifications_runProcessors]

/-- Witness for C10: the payload's own event type is
`s3:ObjectCreated:Put`, yet the published event carries the wildcard
constant. -/
theorem emit_event_type_hardcoded_witness :
    sampleNotification.fileKey = some "data.json" ∧ "data.json" ≠ "" ∧
      sampleNotification.eventName = some "s3:ObjectCreated:Put" ∧
      emittedNotifications (handleNotification [procJson, procAlways]
          (Except.ok ()) (Except.ok [1]) (Except.ok ()) "uploads"
          sampleNotification) = [("uploads", "data.json", "s3:ObjectCreated:*")] :=
  ⟨rfl, by decide, rfl,
    emit_event_type_hardcoded [procJson, procAlways] (Except.ok ())
      (Except.ok [1]) (Except.ok ()) "uploads" "data.json" sampleNotification
      rfl (by decide)⟩

/-! ### C8 -/

lemma lookup_eq_none_of_not_mem_keys (l : List (String × String)) (k : String)
    (h : k ∉ l.map Prod.fst) : l.lookup k = none := by
  induction l with
  | nil => rfl
  | cons p l ih =>
    obtain ⟨k1, v1⟩ := p
    simp only [List.map_cons, List.mem_cons, not_or] at h
    have hbeq : (k == k1) = false := beq_eq_false_iff_ne.mpr h.1
    simp [List.lookup, hbeq, ih h.2]

lemma lookup_mem_values (l : List (String × String)) (k v : String)
    (h : l.lookup k = some v) : v ∈ l.map Prod.snd := by
  induction l with
  | nil => simp [List.lookup] at h
  | cons p l ih =>
    obtain ⟨k1, v1⟩ := p
    cases hbeq : (k == k1) with
    | true =>
      simp only [List.lookup, hbeq] at h
      injection h with h2
      simp [h2]
    | false =>
      simp only [List.lookup, hbeq] at h
      simp [ih h]

lemma mimeTypes_values_nonempty :
    ∀ v ∈ mimeTypes.map Prod.snd, (v == "") = false := by decide

lemma jsPropertyAccess_of_lookup_some (ext v : String)
    (hl : List.lookup ext mimeTypes = some v) :
    jsPropertyAccess ext = JsValue.str v := by
  simp only [jsPropertyAccess]
  rw [hl]

lemma jsPropertyAccess_of_lookup_none (ext : String)
    (hl : List.lookup ext mimeTypes = none) :
    jsPropertyAccess ext =
      if ext ∈ objectProtoKeys then JsValue.protoMember ext else JsValue.undef := by
  simp only [jsPropertyAccess]
  rw [hl]

/-- An own table entry is returned as its content-type string (own values
are nonempty, hence truthy, so the default is skipped). -/
lemma detectMimeTypeValue_of_lookup_some (file v : String)
    (hl : List.lookup (jsToLower ((jsSplitDot file).getLastD "")) mimeTypes =
      some v) :
    detectMimeTypeValue file = JsValue.str v := by
  have hne := mimeTypes_values_nonempty v (lookup_mem_values _ _ _ hl)
  have ht : jsTruthy (JsValue.str v) = true := by simp [jsTruthy, hne]
  simp only [detectMimeTypeValue]
  rw [jsPropertyAccess_of_lookup_some _ v hl, if_pos ht]

/-- A table miss whose key names an inherited prototype member returns that
member: it is truthy, so the generic default is skipped. -/
lemma detectMimeTypeValue_of_lookup_none_proto (file : String)
    (hl : List.lookup (jsToLower ((jsSplitDot file).getLastD "")) mimeTypes =
      none)
    (hp : jsToLower ((jsSplitDot file).getLastD "") ∈ objectProtoKeys) :
    detectMimeTypeValue file =
      JsValue.protoMember (jsToLower ((jsSplitDot file).getLastD "")) := by
  simp only [detectMimeTypeValue]
  rw [jsPropertyAccess_of_lookup_none _ hl, if_pos hp]
  rfl

/-- A genuine miss (neither an own entry nor an inherited prototype member)
is `undefined`, which is falsy, so the generic binary default is returned. -/
lemma detectMimeTypeValue_of_lookup_none_notproto (file : String)
    (hl : List.lookup (jsToLower ((jsSplitDot file).getLastD "")) mimeTypes =
      none)
    (hp : jsToLower ((jsSplitDot file).getLastD "") ∉ objectProtoKeys) :
    detectMimeTypeValue file = JsValue.str "application/octet-stream" := by
  simp only [detectMimeTypeValue]
  rw [jsPropertyAccess_of_lookup_none _ hl, if_neg hp]
  rfl

/-- Away from the two prototype names reachable after lower-casing, the
runtime classifier returns exactly the string the simplified
`detectMimeType` (used by the dispatcher model) computes. -/
lemma detectMimeTypeValue_agrees (file : String)
    (hp : jsToLower ((jsSplitDot file).getLastD "") ∉ objectProtoKeys) :
    detectMimeTypeValue file = JsValue.str (detectMimeType file) := by
  cases hl : List.lookup (jsToLower ((jsSplitDot file).getLastD "")) mimeTypes with
  | some v =>
    rw [detectMimeTypeValue_of_lookup_some file v hl]
    simp only [detectMimeType]
    rw [hl]
    rfl
  | none =>
    rw [detectMimeTypeValue_of_lookup_none_notproto file hl hp]
    simp only [detectMimeType]
    rw [hl]
    rfl

/-- Counterexample to C8 as stated, two independent failures.  (1) The file
name `json` contains no dot, so its extension is missing, yet the classifier
maps it to `application/json` rather than to the generic binary type,
because the source takes the last element of `file.split(".")` — the whole
name when dotless.  (2) For `a.constructor`, an unknown extension, the
source's `mimeTypes["constructor"]` finds the inherited `Object` constructor
on the prototype chain — truthy, so the `|| "application/octet-stream"`
default is skipped — and the classifier returns that non-string value
instead of any content-type string. -/
theorem detect_mime_counterexample :
    (jsSplitDot "json" = ["json"] ∧
        detectMimeTypeValue "json" = JsValue.str "application/json" ∧
        JsValue.str "application/json" ≠
          JsValue.str "application/octet-stream") ∧
      detectMimeTypeValue "a.constructor" = JsValue.protoMember "constructor" ∧
      ∀ s : String, detectMimeTypeValue "a.constructor" ≠ JsValue.str s := by
  refine ⟨⟨by decide, by decide, by decide⟩, by decide, ?_⟩
  intro s h
  rw [show detectMimeTypeValue "a.constructor" =
      JsValue.protoMember "constructor" from by decide] at h
  exact JsValue.noConfusion h

/-- C8 (amended): the classifier is a total deterministic function of the
file name with no side effects and no thrown failure, but its result is a
JavaScript property access on the extension table object, keyed by the
lower-cased last dot-separated component of the name (the whole name when
no dot is present).  An own table entry yields its content-type string, so
known extensions are matched case-insensitively; a component naming an
inherited member of the object prototype — after lower-casing, only
`constructor` and `__proto__` are reachable — yields that inherited truthy
non-string member, skipping the generic default; every other component,
unknown extensions and dotless names alike, yields the generic binary
type. -/
theorem detect_mime_value_amended :
    (∀ file : String,
        jsToLower ((jsSplitDot file).getLastD "") ∉ mimeTypes.map Prod.fst →
        jsToLower ((jsSplitDot file).getLastD "") ∉ objectProtoKeys →
          detectMimeTypeValue file = JsValue.str "application/octet-stream") ∧
      (∀ file : String,
          detectMimeTypeValue file = JsValue.str "application/octet-stream" ∨
          (∃ v ∈ mimeTypes.map Prod.snd,
            detectMimeTypeValue file = JsValue.str v) ∨
          ∃ k ∈ objectProtoKeys,
            detectMimeTypeValue file = JsValue.protoMember k) ∧
      detectMimeTypeValue "report.JSON" = JsValue.str "application/json" ∧
      detectMimeTypeValue "Data.Csv" = detectMimeTypeValue "data.csv" := by
  refine ⟨?_, ?_, by decide, by decide⟩
  · intro file hk hp
    exact detectMimeTypeValue_of_lookup_none_notproto file
      (lookup_eq_none_of_not_mem_keys _ _ hk) hp
  · intro file
    cases hl : List.lookup (jsToLower ((jsSplitDot file).getLastD "")) mimeTypes with
    | some v =>
      exact Or.inr (Or.inl ⟨v, lookup_mem_values _ _ _ hl,
        detectMimeTypeValue_of_lookup_some file v hl⟩)
    | none =>
      by_cases hp : jsToLower ((jsSplitDot file).getLastD "") ∈ objectProtoKeys
      · exact Or.inr (Or.inr ⟨_, hp,
          detectMimeTypeValue_of_lookup_none_proto file hl hp⟩)
      · exact Or.inl (detectMimeTypeValue_of_lookup_none_notproto file hl hp)

/-- Witness for C8 (amended): `archive.bin` has an extension that is neither
a table key nor a prototype member and maps to the generic binary type. -/
theorem detect_mime_value_amended_witness :
    jsToLower ((jsSplitDot "archive.bin").getLastD "") ∉
        mimeTypes.map Prod.fst ∧
      jsToLower ((jsSplitDot "archive.bin").getLastD "") ∉ objectProtoKeys ∧
      detectMimeTypeValue "archive.bin" =
        JsValue.str "application/octet-stream" :=
  ⟨by decide, by decide,
    detect_mime_value_amended.1 "archive.bin" (by decide) (by decide)⟩

/-! ### C9 -/

/-- C9: when the fetched mediator configuration already lists the bucket in
`minio_buckets_registry`, `registerBucket` returns `false`, emits only the
duplicate debug log, and performs no `putConfig` write to the orchestration
API, whatever the API would have answered. -/
theorem register_bucket_duplicate_noop
    (mc : MediatorConfig) (c : MediatorConfigSection)
    (entry : BucketRegistryEntry) (putResult : Except String Unit)
    (bucket : String) (hc : mc.config = some c)
    (hmem : entry ∈ c.minio_buckets_registry.getD [])
    (hb : entry.bucket = bucket) :
    registerBucket (some mc) putResult bucket =
        (Except.ok false, [OHEvent.debugLog (bucketExistsMsg bucket)]) ∧
      ∀ l, OHEvent.putConfig l ∉ (registerBucket (some mc) putResult bucket).2 := by
  have hs : ((c.minio_buckets_registry.getD []).find?
      (fun b => b.bucket == bucket)).isSome :=
    List.find?_isSome.mpr ⟨entry, hmem, by simp [hb]⟩
  obtain ⟨y, hy⟩ := Option.isSome_iff_exists.mp hs
  constructor
  · simp [registerBucket, hc, hy]
  · intro l
    simp [registerBucket, hc, hy]

/-- Witness for C9: a registry already holding `bucket1`. -/
theorem register_bucket_duplicate_noop_witness :
    (MediatorConfig.mk (some (MediatorConfigSection.mk
          (some [BucketRegistryEntry.mk "bucket1"])))).config =
        some (MediatorConfigSection.mk (some [BucketRegistryEntry.mk "bucket1"])) ∧
      BucketRegistryEntry.mk "bucket1" ∈
        (MediatorConfigSection.mk
            (some [BucketRegistryEntry.mk "bucket1"])).minio_buckets_registry.getD [] ∧
      (BucketRegistryEntry.mk "bucket1").bucket = "bucket1" ∧
      (registerBucket (some (MediatorConfig.mk (some (MediatorConfigSection.mk
              (some [BucketRegistryEntry.mk "bucket1"])))))
            (Except.ok ()) "bucket1" =
          (Except.ok false, [OHEvent.debugLog (bucketExistsMsg "bucket1")]) ∧
        ∀ l, OHEvent.putConfig l ∉ (registerBucket
            (some (MediatorConfig.mk (some (MediatorConfigSection.mk
              (some [BucketRegistryEntry.mk "bucket1"])))))
            (Except.ok ()) "bucket1").2) :=
  ⟨rfl, by decide, rfl,
    register_bucket_duplicate_noop _ _ (BucketRegistryEntry.mk "bucket1")
      (Except.ok ()) "bucket1" rfl (by decide) rfl⟩

/-! ### Helper lemmas about the subscription manager -/

lemma startListening_cons_fst (s : LMState) (c : String) (cs : List String) :
    (startListening s (c :: cs)).1 = (startListening (startListeningStep s c).1 cs).1 :=
  rfl

lemma runCalls_cons (s : LMState) (c : List String) (cs : List (List String)) :
    runCalls s (c :: cs) = runCalls (startListening s c).1 cs :=
  rfl

lemma lmKeys_step (s : LMState) (b : String) (h : LMInv s) :
    LMInv (startListeningStep s b).1 ∧
      lmKeys (startListeningStep s b).1 =
        if b ∈ lmKeys s then lmKeys s else lmKeys s ++ [b] := by
  obtain ⟨hreg, hnd, hids⟩ := h
  by_cases hb : b ∈ s.registeredBuckets
  · have hstep : (startListeningStep s b).1 = s := by
      simp [startListeningStep, hb]
    have hb' : b ∈ lmKeys s := by
      rw [← hreg]
      exact hb
    rw [hstep, if_pos hb']
    exact ⟨⟨hreg, hnd, hids⟩, rfl⟩
  · have hstep : (startListeningStep s b).1 =
        LMState.mk (s.registeredBuckets ++ [b]) (s.listeners ++ [(b, s.nextId)])
          (s.nextId + 1) := by
      simp [startListeningStep, hb]
    have hb' : b ∉ lmKeys s := fun hc => hb (by rw [hreg]; exact hc)
    rw [hstep, if_neg hb']
    refine ⟨⟨?_, ?_, ?_⟩, ?_⟩
    · simp [lmKeys, hreg]
    · simp only [lmKeys, List.map_append]
      rw [List.nodup_append]
      refine ⟨hnd, List.nodup_singleton b, ?_⟩
      intro x hx hxs
      rcases List.mem_singleton.mp hxs with rfl
      exact hb' hx
    · intro p hp
      rcases List.mem_append.mp hp with hm | hm
      · exact Nat.lt_succ_of_lt (hids p hm)
      · rcases List.mem_singleton.mp hm with rfl
        exact Nat.lt_succ_self _
    · simp [lmKeys]

lemma startListening_inv (cs : List String) (s : LMState) (h : LMInv s) :
    LMInv (startListening s cs).1 ∧
      ∀ b, b ∈ lmKeys (startListening s cs).1 ↔ b ∈ lmKeys s ∨ b ∈ cs := by
  induction cs generalizing s with
  | nil => simp [startListening, h]
  | cons c cs ih =>
    obtain ⟨h1, h2⟩ := lmKeys_step s c h
    obtain ⟨h3, h4⟩ := ih (startListeningStep s c).1 h1
    refine ⟨by rw [startListening_cons_fst]; exact h3, ?_⟩
    intro b
    rw [startListening_cons_fst, h4 b, h2]
    by_cases hc : c ∈ lmKeys s
    · rw [if_pos hc]
      by_cases hbc : b = c
      · subst hbc
        simp [hc]
      · simp [hbc]
    · rw [if_neg hc]
      simp [List.mem_append, or_assoc]

lemma runCalls_inv (cs : List (List String)) (s : LMState) (h : LMInv s) :
    LMInv (runCalls s cs) ∧
      ∀ b, b ∈ lmKeys (runCalls s cs) ↔ b ∈ lmKeys s ∨ ∃ c ∈ cs, b ∈ c := by
  induction cs generalizing s with
  | nil => simp [runCalls, h]
  | cons c cs ih =>
    obtain ⟨h1, h2⟩ := startListening_inv c s h
    obtain ⟨h3, h4⟩ := ih (startListening s c).1 h1
    refine ⟨by rw [runCalls_cons]; exact h3, ?_⟩
    intro b
    rw [runCalls_cons, h4 b, h2 b]
    simp [or_assoc]

lemma mem_stopEvents (l : List (String × Nat)) (p : String × Nat) (hp : p ∈ l) :
    LMEvent.stopSubscription p.1 p.2 ∈ stopEvents l := by
  induction l with
  | nil => cases hp
  | cons q l ih =>
    rcases List.mem_cons.mp hp with h | h
    · subst h
      simp [stopEvents]
    · simp [stopEvents, ih h]

/-! ### C5 -/

/-- C5: across any sequence of `startListening` calls on a fresh
`ListenerManager`, the bucket names holding a live subscription are exactly
the distinct names mentioned by the calls, with no duplicates — so a bucket
already in the subscribed set never receives a second subscription, and two
calls with overlapping bucket sets leave exactly one active subscription per
distinct bucket name. -/
theorem subscription_unique_per_bucket (calls : List (List String)) :
    (lmKeys (runCalls initState calls)).Nodup ∧
      ∀ b, b ∈ lmKeys (runCalls initState calls) ↔ ∃ c ∈ calls, b ∈ c := by
  obtain ⟨⟨_, hnd, _⟩, hmem⟩ :=
    runCalls_inv calls initState ⟨rfl, List.nodup_nil, by simp [initState]⟩
  refine ⟨hnd, fun b => ?_⟩
  rw [hmem b]
  simp [initState, lmKeys]

/-! ### C6 -/

/-- C6: `stopListening` requests stop on the poller of every active
subscription and clears both the subscribed-bucket set and the
bucket-to-handle map; on a manager with no subscriptions it is a no-op
(state unchanged, no events); and a subsequent `startListening` on a bucket
opens exactly one fresh subscription whose poller handle is distinct from
every handle the stopped subscriptions used. -/
theorem stop_listening_clears_then_fresh_restart (s : LMState) (h : LMInv s)
    (b : String) :
    (stopListening s).1.registeredBuckets = [] ∧
      (stopListening s).1.listeners = [] ∧
      (∀ p ∈ s.listeners, LMEvent.stopSubscription p.1 p.2 ∈ (stopListening s).2) ∧
      (s.listeners = [] → stopListening s = (s, [])) ∧
      (startListening (stopListening s).1 [b]).1.listeners = [(b, s.nextId)] ∧
      ∀ p ∈ s.listeners, p.2 ≠ s.nextId := by
  refine ⟨rfl, rfl, fun p hp => mem_stopEvents _ p hp, ?_, ?_, ?_⟩
  · intro hl
    have hreg : s.registeredBuckets = [] := by
      rw [h.1]
      simp [lmKeys, hl]
    cases s with
    | mk r l n =>
      simp only at hreg hl
      subst hreg
      subst hl
      rfl
  · simp [stopListening, startListening, startListeningStep]
  · exact fun p hp => Nat.ne_of_lt (h.2.2 p hp)

/-- Witness for C6: a manager with one live subscription on bucket `a` with
poller handle 0 and fresh-handle counter 1. -/
theorem stop_listening_clears_then_fresh_restart_witness :
    LMInv (LMState.mk ["a"] [("a", 0)] 1) ∧
      ((stopListening (LMState.mk ["a"] [("a", 0)] 1)).1.registeredBuckets = [] ∧
        (stopListening (LMState.mk ["a"] [("a", 0)] 1)).1.listeners = [] ∧
        (∀ p ∈ (LMState.mk ["a"] [("a", 0)] 1).listeners,
          LMEvent.stopSubscription p.1 p.2 ∈
            (stopListening (LMState.mk ["a"] [("a", 0)] 1)).2) ∧
        ((LMState.mk ["a"] [("a", 0)] 1).listeners = [] →
          stopListening (LMState.mk ["a"] [("a", 0)] 1) =
            (LMState.mk ["a"] [("a", 0)] 1, [])) ∧
        (startListening (stopListening (LMState.mk ["a"] [("a", 0)] 1)).1
            ["a"]).1.listeners = [("a", (LMState.mk ["a"] [("a", 0)] 1).nextId)] ∧
        ∀ p ∈ (LMState.mk ["a"] [("a", 0)] 1).listeners,
          p.2 ≠ (LMState.mk ["a"] [("a", 0)] 1).nextId) :=
  ⟨⟨rfl, by decide, by decide⟩,
    stop_listening_clears_then_fresh_restart (LMState.mk ["a"] [("a", 0)] 1)
      ⟨rfl, by decide, by decide⟩ "a"⟩

end DatalakeLib
